import Mathlib

/-!
Verification of the Talexa resume-screening core: a shallow embedding of
the match-score calculator (`automation/matcher.py`), the resume text
cleaner and format dispatch (`automation/resume_parser.py`), the AI
response post-processing (`automation/ai_analyzer.py`), and the service
layer extraction wrapper (`backend/app/services/resume_service.py`),
together with theorems settling the specification claims about them.

Numeric scores are modelled as rationals; Python float literals such as
0.5, 0.8, 0.05 are exactly representable and the arithmetic performed on
them here stays within ranges where float and rational agree on every
comparison the code makes.  Strings are Lean strings; `str.lower()` and
`str.strip()` are embedded as ASCII lower-casing and whitespace trimming
on the underlying character list.
-/

namespace Talexa

/-! ## Text utilities shared by the parser and the matcher -/

/-- Whitespace test matching the characters Python's `str.strip` and the
regex class `\s` treat as whitespace (ASCII range). -/
def isWs (c : Char) : Bool :=
  c = ' ' || c = '\t' || c = '\n' || c = '\r' || c = '\x0b' || c = '\x0c'

/-- Embedding of `str.strip()`: drop whitespace from both ends. -/
def trimWs (l : List Char) : List Char :=
  ((l.dropWhile isWs).reverse.dropWhile isWs).reverse

/-- Embedding of `str.lower()` (ASCII). -/
def lowerStr (s : String) : String := String.mk (s.data.map Char.toLower)

/-- Embedding of `text.split("\n")`: split a character list at newline
characters; like Python, the empty text yields one empty field. -/
def splitNl : List Char → List (List Char)
  | [] => [[]]
  | c :: rest =>
    let gs := splitNl rest
    if c = '\n' then [] :: gs
    else
      match gs with
      | [] => [[c]]
      | g :: gt => (c :: g) :: gt

/-- Embedding of `re.sub(r'\s+', ' ', text)`: every maximal run of
whitespace characters is replaced by a single space. -/
def collapseWs : List Char → List Char
  | [] => []
  | [c] => if isWs c then [' '] else [c]
  | a :: b :: rest =>
    if isWs a && isWs b then collapseWs (b :: rest)
    else (if isWs a then ' ' else a) :: collapseWs (b :: rest)

/-! ## `ResumeParser.clean_text` (`automation/resume_parser.py`) -/

/-- Embedding of `ResumeParser.clean_text` on character lists: split into
lines, strip each line, keep the non-blank ones, rejoin with newlines,
collapse whitespace runs to single spaces, and strip the result. -/
def clean_text (l : List Char) : List Char :=
  trimWs (collapseWs
    (List.intercalate ['\n'] (((splitNl l).map trimWs).filter (fun g => !g.isEmpty))))

/-- Embedding of `ResumeParser.clean_text` on strings. -/
def clean_textS (s : String) : String := String.mk (clean_text s.data)

/-! ## `MatchScoreCalculator` (`automation/matcher.py`) -/

namespace Matcher

/-- Weight of the skills sub-score (`WEIGHTS["skills"]`). -/
def WEIGHTS_skills : ℚ := 0.50

/-- Weight of the experience sub-score (`WEIGHTS["experience"]`). -/
def WEIGHTS_experience : ℚ := 0.30

/-- Weight of the education sub-score (`WEIGHTS["education"]`). -/
def WEIGHTS_education : ℚ := 0.20

/-- Skill normalization `s.lower().strip()`. -/
def normSkill (s : String) : String :=
  String.mk (trimWs (s.data.map Char.toLower))

/-- The set comprehension over a skill list: normalized skills as a set. -/
def normSet (l : List String) : Finset String := (l.map normSkill).toFinset

/-- Embedding of `MatchScoreCalculator.calculate_skills_score`. -/
def calculate_skills_score (candidate_skills required_skills : List String) : ℚ :=
  if required_skills = [] then 1
  else if candidate_skills = [] then 0
  else
    min (((normSet candidate_skills ∩ normSet required_skills).card : ℚ)
          / ((normSet required_skills).card : ℚ)) 1

/-- Numeric value of a digit run, most significant digit first. -/
def digitsVal (ds : List Char) : ℕ :=
  ds.foldl (fun n c => 10 * n + (c.toNat - 48)) 0

/-- Embedding of `re.search(r'(\d+)', s)`: the value of the first maximal
digit run in the character list, if any. -/
def firstNat : List Char → Option ℕ
  | [] => none
  | c :: rest =>
    if c.isDigit then some (digitsVal (c :: rest.takeWhile Char.isDigit))
    else firstNat rest

/-- Embedding of `MatchScoreCalculator.calculate_experience_score`. -/
def calculate_experience_score (candidate_years : ℕ) (required_experience : String) : ℚ :=
  if required_experience = "" ∨ lowerStr required_experience = "no experience required" then 1
  else
    match firstNat required_experience.data with
    | none => 0.5
    | some required_years =>
      if required_years ≤ candidate_years then
        min 1 (0.8 + min (((candidate_years : ℚ) - (required_years : ℚ)) * 0.05) 0.2)
      else if (required_years : ℚ) * 0.75 ≤ (candidate_years : ℚ) then 0.8
      else if (required_years : ℚ) * 0.5 ≤ (candidate_years : ℚ) then 0.6
      else if 0 < candidate_years then 0.4
      else 0.2

/-- The `education_levels` table, in Python dict insertion order. -/
def education_levels : List (String × ℕ) :=
  [("high school", 1), ("associate", 2), ("bachelor", 3), ("bachelor\x27s", 3),
   ("master", 4), ("master\x27s", 4), ("phd", 5), ("doctorate", 5)]

/-- Substring containment test, embedding Python's `needle in haystack`. -/
def substrOf (needle haystack : List Char) : Bool :=
  haystack.tails.any (fun t => needle.isPrefixOf t)

/-- Rank of an education string: the value of the first table entry whose
key is contained in the lower-cased string, 0 when none is. -/
def levelOf (s : String) : ℕ :=
  match education_levels.find? (fun kv => substrOf kv.1.data (lowerStr s).data) with
  | some kv => kv.2
  | none => 0

/-- Embedding of `MatchScoreCalculator.calculate_education_score`; a
`none` or empty required string is falsy in the Python guard. -/
def calculate_education_score (candidate_education : String)
    (required_education : Option String) : ℚ :=
  let cl := levelOf candidate_education
  if required_education.getD "" = "" then min ((cl : ℚ) / 3) 1
  else
    let rl := levelOf (required_education.getD "")
    if rl ≤ cl then 1
    else if rl - 1 ≤ cl then 0.7
    else if 0 < cl then 0.4
    else 0

/-- The fields of `analysis_result` that `calculate_match_score` reads. -/
structure AnalysisResult where
  skills : List String
  experience_years : ℕ
  education_level : String

/-- The fields of `job_requirements` that `calculate_match_score` reads. -/
structure JobRequirements where
  skills : List String
  minimum_experience : String
  education_level : Option String

/-- Rounding to two decimal places, embedding `round(x, 2)`. -/
def round2 (x : ℚ) : ℚ := ((round (x * 100) : ℤ) : ℚ) / 100

/-- Embedding of `MatchScoreCalculator.calculate_match_score`. -/
def calculate_match_score (a : AnalysisResult) (j : JobRequirements) : ℚ :=
  round2 (calculate_skills_score a.skills j.skills * WEIGHTS_skills
    + calculate_experience_score a.experience_years j.minimum_experience * WEIGHTS_experience
    + calculate_education_score a.education_level j.education_level * WEIGHTS_education)

/-- Embedding of `MatchScoreCalculator.get_match_category`. -/
def get_match_category (score : ℚ) : String :=
  if 0.8 ≤ score then "Excellent Match"
  else if 0.6 ≤ score then "Good Match"
  else if 0.4 ≤ score then "Fair Match"
  else "Poor Match"

end Matcher

/-! ## `AIAnalyzer` response post-processing (`automation/ai_analyzer.py`)

The completion call itself is external I/O; what the claims are about is
the pure post-processing of the (possibly unparseable) response body.  A
JSON value is embedded as `JVal`; the parse outcome of the response text
is an `Option` over association lists (`none` models a
`json.JSONDecodeError`, `some o` a successfully parsed JSON object). -/

namespace Analyzer

/-- JSON values as produced by `json.loads` and written back into the
analysis dictionary. -/
inductive JVal where
  | null : JVal
  | str : String → JVal
  | num : Int → JVal
  | arr : List JVal → JVal
  | obj : List (String × JVal) → JVal

/-- Key lookup in a JSON object, embedding `analysis_result[field]` /
`field in analysis_result` on a dict with unique keys. -/
def lookupKey (o : List (String × JVal)) (k : String) : Option JVal :=
  (o.find? (fun kv => kv.1 = k)).map (fun kv => kv.2)

/-- The `required_fields` list validated after a successful parse. -/
def REQUIRED_FIELDS : List String := ["skills", "experience_years", "education_level"]

/-- Default filled in by the async `analyze_resume` for a missing
mandatory field: `None if field == "experience_years" else []`. -/
def asyncDefault (field : String) : JVal :=
  if field = "experience_years" then .null else .arr []

/-- Default filled in by `sync_analyze_resume` for a missing mandatory
field: `0` for experience years, `[]` for skills, `"Unknown"` otherwise. -/
def syncDefault (field : String) : JVal :=
  if field = "experience_years" then .num 0
  else if field = "skills" then .arr []
  else .str "Unknown"

/-- The loop `for field in required_fields: if field not in result:
result[field] = default(field)`; dict insertion appends the new key. -/
def fillMissing (default : String → JVal) (o : List (String × JVal)) :
    List (String × JVal) :=
  REQUIRED_FIELDS.foldl
    (fun acc f => if (lookupKey acc f).isSome then acc else acc ++ [(f, default f)]) o

/-- The fallback dictionary both variants build when the response does
not parse as JSON; `extra` holds the async variant's `"error"` entry. -/
def fallbackProfile (jobSkills : List String) (extra : List (String × JVal)) :
    List (String × JVal) :=
  [("skills", .arr []), ("experience_years", .num 0),
   ("education_level", .str "Unknown"), ("key_achievements", .arr []),
   ("summary", .str "Error parsing AI response"), ("matched_skills", .arr []),
   ("missing_skills", .arr (jobSkills.map .str))] ++ extra

/-- Post-parse behaviour of the async `AIAnalyzer.analyze_resume`:
`parsed` is the outcome of `json.loads` on the response content,
`jobSkills` is `job_requirements.get("skills", [])`, `errMsg` the decode
error text. -/
def analyze_resume_post (parsed : Option (List (String × JVal)))
    (jobSkills : List String) (errMsg : String) : List (String × JVal) :=
  match parsed with
  | some o => fillMissing asyncDefault o
  | none => fallbackProfile jobSkills [("error", .str errMsg)]

/-- Post-parse behaviour of `AIAnalyzer.sync_analyze_resume`. -/
def sync_analyze_resume_post (parsed : Option (List (String × JVal)))
    (jobSkills : List String) : List (String × JVal) :=
  match parsed with
  | some o => fillMissing syncDefault o
  | none => fallbackProfile jobSkills []

end Analyzer

/-! ## `ResumeParser` format dispatch and PDF fallback
(`automation/resume_parser.py`, `backend/app/services/resume_service.py`)

The two PDF extraction strategies are external library calls; a document
is embedded by what each strategy would yield for it: either an exception
(`Except.error`) or a list of per-page optional texts (`pdfplumber` /
`PyPDF2` return `None` or a string per page, and the code keeps only
truthy page texts). -/

namespace Parser

/-- A PDF document, seen through the outcomes of the two strategies. -/
structure PdfDoc where
  plumberPages : Except String (List (Option String))
  pypdfPages : Except String (List (Option String))

/-- The page loop shared by both strategies: concatenate every truthy
page text followed by a newline, then strip the result. -/
def pagesText (pages : List (Option String)) : String :=
  String.mk (trimWs (pages.foldl
    (fun acc p =>
      match p with
      | some t => if t = "" then acc else acc ++ t.data ++ ['\n']
      | none => acc) []))

/-- Embedding of `ResumeParser._extract_pdf_pypdf2`: on an exception the
error is wrapped in a `ValueError` message. -/
def extract_pdf_pypdf2 (d : PdfDoc) : Except String String :=
  match d.pypdfPages with
  | .ok pages => .ok (pagesText pages)
  | .error e => .error ("Could not extract text from PDF: " ++ e)

/-- Embedding of `ResumeParser.extract_from_pdf`: run pdfplumber, and
only when it raises fall back to the PyPDF2 strategy. -/
def extract_from_pdf (d : PdfDoc) : Except String String :=
  match d.plumberPages with
  | .ok pages => .ok (pagesText pages)
  | .error _ => extract_pdf_pypdf2 d

/-- Outcome of `ResumeParser.parse_resume`, separating the Python
exception types the method can raise. -/
inductive ParseOutcome where
  | ok : String → ParseOutcome
  | fileNotFound : ParseOutcome
  | docNotImplemented : ParseOutcome
  | unsupportedExt : String → ParseOutcome
  | extractionError : String → ParseOutcome

/-- The spec's `UnsupportedFormatError` category: a document format not
handled at all, covering both the legacy `.doc` branch (Python
`NotImplementedError`) and the unknown-suffix branch (`ValueError`). -/
def UnsupportedFormatError : ParseOutcome → Prop
  | .docNotImplemented => True
  | .unsupportedExt _ => True
  | _ => False

/-- Embedding of `ResumeParser.parse_resume`: existence check, then
dispatch on the lower-cased suffix; `pdfRes` and `docxRes` are the
outcomes the respective extractors would produce for this file. -/
def parse_resume (fileExists : Bool) (ext : String)
    (pdfRes docxRes : Except String String) : ParseOutcome :=
  if fileExists = false then .fileNotFound
  else
    let e := lowerStr ext
    if e = ".pdf" then
      match pdfRes with
      | .ok t => .ok t
      | .error m => .extractionError m
    else if e = ".docx" then
      match docxRes with
      | .ok t => .ok t
      | .error m => .extractionError m
    else if e = ".doc" then .docNotImplemented
    else .unsupportedExt e

/-- Embedding of `ResumeService.extract_text`: clean the parsed text and
reject an empty result; an extraction exception propagates unchanged. -/
def extract_text (parsed : Except String String) : Except String String :=
  match parsed with
  | .error e => .error e
  | .ok t =>
    let c := clean_textS t
    if c = "" then .error "No text could be extracted from resume" else .ok c

end Parser

/-! ## Helper lemmas -/

namespace Matcher

/-- Rounding to two decimals keeps a value of the unit interval inside
the unit interval. -/
lemma round2_mem_unit {x : ℚ} (h0 : 0 ≤ x) (h1 : x ≤ 1) :
    0 ≤ round2 x ∧ round2 x ≤ 1 := by
  have hl : (0 : ℤ) ≤ round (x * 100) := by
    rw [round_eq]
    refine Int.le_floor.mpr ?_
    push_cast
    linarith
  have hu : round (x * 100) ≤ 100 := by
    rw [round_eq]
    have hlt : ⌊x * 100 + 1 / 2⌋ < 101 := Int.floor_lt.mpr (by push_cast; linarith)
    omega
  constructor
  · exact div_nonneg (by exact_mod_cast hl) (by norm_num)
  · rw [round2, div_le_one (by norm_num : (0:ℚ) < 100)]
    exact_mod_cast hu

/-- A non-empty skill list has a non-empty normalized skill set. -/
lemma normSet_nonempty {l : List String} (h : l ≠ []) : (normSet l).Nonempty := by
  cases l with
  | nil => exact absurd rfl h
  | cons a t => exact ⟨normSkill a, by simp [normSet]⟩

/-- The skills sub-score is never negative. -/
lemma skills_score_nonneg (c r : List String) : 0 ≤ calculate_skills_score c r := by
  unfold calculate_skills_score
  split_ifs
  · norm_num
  · norm_num
  · exact le_min (div_nonneg (Nat.cast_nonneg _) (Nat.cast_nonneg _)) (by norm_num)

/-- The skills sub-score never exceeds one. -/
lemma skills_score_le_one (c r : List String) : calculate_skills_score c r ≤ 1 := by
  unfold calculate_skills_score
  split_ifs
  · norm_num
  · norm_num
  · exact min_le_right _ _

/-- Reduction of the experience score once the requirement string is
non-trivial and its first integer is known. -/
lemma experience_score_of_parse {y : ℕ} {s : String} {r : ℕ}
    (hs : s ≠ "") (hl : lowerStr s ≠ "no experience required")
    (hp : firstNat s.data = some r) :
    calculate_experience_score y s =
      if r ≤ y then min 1 (0.8 + min (((y : ℚ) - (r : ℚ)) * 0.05) 0.2)
      else if (r : ℚ) * 0.75 ≤ (y : ℚ) then 0.8
      else if (r : ℚ) * 0.5 ≤ (y : ℚ) then 0.6
      else if 0 < y then 0.4 else 0.2 := by
  unfold calculate_experience_score
  rw [if_neg (by simp [hs, hl]), hp]

/-- Reduction of the education score once a non-empty requirement string
is given. -/
lemma education_score_of_req {cand req : String} (hreq : req ≠ "") :
    calculate_education_score cand (some req) =
      if levelOf req ≤ levelOf cand then 1
      else if levelOf req - 1 ≤ levelOf cand then 0.7
      else if 0 < levelOf cand then 0.4 else 0 := by
  unfold calculate_education_score
  simp only [Option.getD_some]
  rw [if_neg hreq]

/-- A larger normalized-skill intersection never lowers the skills
sub-score. -/
lemma skills_score_mono (c₁ c₂ r : List String)
    (h : normSet c₁ ∩ normSet r ⊆ normSet c₂ ∩ normSet r) :
    calculate_skills_score c₁ r ≤ calculate_skills_score c₂ r := by
  by_cases hr : r = []
  · simp [calculate_skills_score, hr]
  · by_cases hc2 : c₂ = []
    · have hsub : normSet c₁ ∩ normSet r ⊆ (∅ : Finset String) := by
        refine h.trans ?_
        simp [hc2, normSet]
      have hcard : (normSet c₁ ∩ normSet r).card = 0 :=
        Finset.card_eq_zero.mpr (Finset.subset_empty.mp hsub)
      by_cases hc1 : c₁ = []
      · simp [calculate_skills_score, hr, hc1, hc2]
      · simp [calculate_skills_score, hr, hc1, hc2, hcard]
    · by_cases hc1 : c₁ = []
      · have h0 := skills_score_nonneg c₂ r
        simpa [calculate_skills_score, hr, hc1] using h0
      · have hpos : (0 : ℚ) < ((normSet r).card : ℚ) := by
          exact_mod_cast Finset.card_pos.mpr (normSet_nonempty hr)
        have hle : ((normSet c₁ ∩ normSet r).card : ℚ)
            ≤ ((normSet c₂ ∩ normSet r).card : ℚ) := by
          exact_mod_cast Finset.card_le_card h
        simp only [calculate_skills_score, hr, hc1, hc2, if_false]
        exact min_le_min (by gcongr) le_rfl

end Matcher

namespace Analyzer

/-- Key lookup distributes over object concatenation, first occurrence
winning. -/
lemma lookupKey_append (o₁ o₂ : List (String × JVal)) (k : String) :
    lookupKey (o₁ ++ o₂) k = (lookupKey o₁ k).or (lookupKey o₂ k) := by
  unfold lookupKey
  rw [List.find?_append]
  cases List.find? (fun kv => kv.1 = k) o₁ <;> rfl

/-- The field-defaulting loop never changes a key that is already
present. -/
lemma lookupKey_fillLoop_of_some (d : String → JVal) (fields : List String)
    {o : List (String × JVal)} {f : String} {v : JVal}
    (h : lookupKey o f = some v) :
    lookupKey (fields.foldl
      (fun acc g => if (lookupKey acc g).isSome then acc else acc ++ [(g, d g)]) o) f
      = some v := by
  induction fields generalizing o with
  | nil => exact h
  | cons g gs ih =>
    simp only [List.foldl_cons]
    apply ih
    by_cases hg : (lookupKey o g).isSome = true
    · rw [if_pos hg]
      exact h
    · rw [if_neg hg, lookupKey_append, h]
      rfl

/-- The field-defaulting loop fills every listed key that is absent with
its default. -/
lemma lookupKey_fillLoop_of_none (d : String → JVal) {fields : List String}
    {o : List (String × JVal)} {f : String}
    (hf : f ∈ fields) (h : lookupKey o f = none) :
    lookupKey (fields.foldl
      (fun acc g => if (lookupKey acc g).isSome then acc else acc ++ [(g, d g)]) o) f
      = some (d f) := by
  induction fields generalizing o with
  | nil => exact absurd hf (List.not_mem_nil f)
  | cons g gs ih =>
    simp only [List.foldl_cons]
    by_cases hfg : f = g
    · subst hfg
      rw [if_neg (by rw [h]; exact Bool.false_ne_true)]
      refine lookupKey_fillLoop_of_some d gs ?_
      rw [lookupKey_append, h]
      simp [lookupKey]
    · have hf' : f ∈ gs := by
        cases List.mem_cons.mp hf with
        | inl heq => exact absurd heq hfg
        | inr hmem => exact hmem
      by_cases hg : (lookupKey o g).isSome = true
      · rw [if_pos hg]
        exact ih hf' h
      · rw [if_neg hg]
        refine ih hf' ?_
        rw [lookupKey_append, h]
        have hgf : ¬ g = f := fun hgf => hfg hgf.symm
        simp [lookupKey, hgf]

end Analyzer

/-- The first element surviving `dropWhile p` does not satisfy `p`. -/
lemma head?_dropWhile_not {p : Char → Bool} {l : List Char} {c : Char}
    (h : (l.dropWhile p).head? = some c) : p c = false := by
  induction l with
  | nil => simp at h
  | cons a t ih =>
    rw [List.dropWhile_cons] at h
    by_cases hp : p a = true
    · rw [if_pos hp] at h
      exact ih h
    · rw [if_neg hp] at h
      simp at h
      rw [← h]
      exact (Bool.not_eq_true _).mp hp

/-- Unfolding equation of `collapseWs` on a singleton. -/
lemma collapseWs_one (c : Char) : collapseWs [c] = if isWs c then [' '] else [c] := rfl

/-- Unfolding equation of `collapseWs` on two or more characters. -/
lemma collapseWs_cons₂ (a b : Char) (rest : List Char) :
    collapseWs (a :: b :: rest) =
      if isWs a && isWs b then collapseWs (b :: rest)
      else (if isWs a then ' ' else a) :: collapseWs (b :: rest) := rfl

/-- Every whitespace character surviving `collapseWs` is a space. -/
lemma collapseWs_ws_mem {l : List Char} {c : Char} (hc : c ∈ collapseWs l)
    (hws : isWs c = true) : c = ' ' := by
  induction l with
  | nil => simp [collapseWs] at hc
  | cons a t ih =>
    cases t with
    | nil =>
      rw [collapseWs_one] at hc
      by_cases hwa : isWs a = true
      · rw [if_pos hwa] at hc
        simpa using hc
      · rw [if_neg hwa] at hc
        have hca : c = a := by simpa using hc
        rw [hca] at hws
        exact absurd hws hwa
    | cons b r =>
      rw [collapseWs_cons₂] at hc
      by_cases hab : (isWs a && isWs b) = true
      · rw [if_pos hab] at hc
        exact ih hc
      · rw [if_neg hab] at hc
        rcases List.mem_cons.mp hc with h1 | h2
        · by_cases hwa : isWs a = true
          · rw [if_pos hwa] at h1
            exact h1
          · rw [if_neg hwa] at h1
            rw [h1] at hws
            exact absurd hws hwa
        · exact ih h2

/-- When its first character is not whitespace, `collapseWs` keeps it in
place. -/
lemma collapseWs_cons_head {b : Char} (rest : List Char) (hb : isWs b = false) :
    ∃ t, collapseWs (b :: rest) = b :: t := by
  cases rest with
  | nil =>
    refine ⟨[], ?_⟩
    rw [collapseWs_one, if_neg (by simp [hb])]
  | cons c r =>
    refine ⟨collapseWs (c :: r), ?_⟩
    rw [collapseWs_cons₂, if_neg (by simp [hb]), if_neg (by simp [hb])]

/-- The output of `collapseWs` has no two adjacent whitespace
characters. -/
lemma collapseWs_chain' : ∀ l : List Char,
    (collapseWs l).Chain' (fun a b => ¬(isWs a = true ∧ isWs b = true))
  | [] => by simp [collapseWs]
  | [c] => by
    rw [collapseWs_one]
    split_ifs <;> exact List.chain'_singleton _
  | a :: b :: rest => by
    rw [collapseWs_cons₂]
    by_cases hab : (isWs a && isWs b) = true
    · rw [if_pos hab]
      exact collapseWs_chain' (b :: rest)
    · rw [if_neg hab]
      refine List.chain'_cons'.mpr ⟨?_, collapseWs_chain' (b :: rest)⟩
      intro y hy
      by_cases hwa : isWs a = true
      · have hwb : isWs b = false := by
          cases hb : isWs b
          · rfl
          · exact absurd (by rw [hwa, hb]; rfl) hab
        obtain ⟨t, ht⟩ := collapseWs_cons_head rest hwb
        rw [ht] at hy
        simp at hy
        rw [if_pos hwa]
        intro hcontra
        rw [← hy, hwb] at hcontra
        exact Bool.false_ne_true hcontra.2
      · rw [if_neg hwa]
        intro hcontra
        exact hwa hcontra.1

/-- A list whose whitespace is all single spaces separated by
non-whitespace is a fixpoint of `collapseWs`. -/
lemma collapseWs_fix : ∀ l : List Char,
    (∀ c ∈ l, isWs c = true → c = ' ') →
    l.Chain' (fun a b => ¬(isWs a = true ∧ isWs b = true)) →
    collapseWs l = l
  | [], _, _ => rfl
  | [c], hm, _ => by
    rw [collapseWs_one]
    by_cases hwc : isWs c = true
    · rw [if_pos hwc, hm c (by simp) hwc]
    · rw [if_neg hwc]
  | a :: b :: rest, hm, hch => by
    have hnab : ¬(isWs a = true ∧ isWs b = true) :=
      (List.chain'_cons'.mp hch).1 b rfl
    have htail : collapseWs (b :: rest) = b :: rest :=
      collapseWs_fix (b :: rest) (fun c hc hw => hm c (List.mem_cons_of_mem a hc) hw)
        (List.chain'_cons'.mp hch).2
    rw [collapseWs_cons₂, if_neg (by simpa using hnab), htail]
    by_cases hwa : isWs a = true
    · rw [if_pos hwa, hm a (by simp) hwa]
    · rw [if_neg hwa]

/-- The trimmed list is an infix of the original. -/
lemma trimWs_within (l : List Char) : trimWs l <:+: l := by
  have h1 : l.dropWhile isWs <:+ l := List.dropWhile_suffix isWs
  have h2 : (l.dropWhile isWs).reverse.dropWhile isWs <:+ (l.dropWhile isWs).reverse :=
    List.dropWhile_suffix isWs
  rw [← List.reverse_reverse ((l.dropWhile isWs).reverse.dropWhile isWs)] at h2
  have h3 : ((l.dropWhile isWs).reverse.dropWhile isWs).reverse <+: l.dropWhile isWs := by
    have := List.reverse_suffix.mp h2
    simpa using this
  exact List.IsInfix.trans (List.IsPrefix.isInfix h3) (List.IsSuffix.isInfix h1)

/-- The first character of a trimmed list is not whitespace. -/
lemma trimWs_head_not_ws {l : List Char} {c : Char}
    (h : (trimWs l).head? = some c) : isWs c = false := by
  unfold trimWs at h
  rw [List.head?_reverse] at h
  have hs : (l.dropWhile isWs).reverse.dropWhile isWs ≠ [] := by
    intro he
    rw [he] at h
    simp at h
  obtain ⟨t, ht⟩ := List.dropWhile_suffix (l := (l.dropWhile isWs).reverse) isWs
  have hZ : ((l.dropWhile isWs).reverse).getLast? = some c := by
    rw [← ht, List.getLast?_append_of_ne_nil t hs]
    exact h
  rw [List.getLast?_reverse] at hZ
  exact head?_dropWhile_not hZ

/-- The last character of a trimmed list is not whitespace. -/
lemma trimWs_getLast_not_ws {l : List Char} {c : Char}
    (h : (trimWs l).getLast? = some c) : isWs c = false := by
  unfold trimWs at h
  rw [List.getLast?_reverse] at h
  exact head?_dropWhile_not h

/-- A list already free of leading and trailing whitespace is a fixpoint
of `trimWs`. -/
lemma trimWs_eq_self {l : List Char}
    (hh : ∀ c, l.head? = some c → isWs c = false)
    (hl : ∀ c, l.getLast? = some c → isWs c = false) :
    trimWs l = l := by
  cases l with
  | nil => rfl
  | cons a t =>
    have ha : isWs a = false := hh a rfl
    have h1 : (a :: t).dropWhile isWs = a :: t := by
      rw [List.dropWhile_cons, if_neg (by simp [ha])]
    have hsome : ((a :: t).getLast?).isSome :=
      List.getLast?_isSome.mpr (by simp)
    obtain ⟨b, hL⟩ := Option.isSome_iff_exists.mp hsome
    have hb : isWs b = false := hl b hL
    unfold trimWs
    rw [h1]
    cases hrev : (a :: t).reverse with
    | nil => simp at hrev
    | cons x xs =>
      have hx : x = b := by
        have hhr := List.head?_reverse (a :: t)
        rw [hrev, hL] at hhr
        simpa using hhr
      rw [List.dropWhile_cons]
      rw [if_neg (by simp [hx, hb])]
      rw [← hrev]
      rw [List.reverse_reverse]

/-- Splitting a newline-free list yields just that list. -/
lemma splitNl_no_nl {l : List Char} (h : '\n' ∉ l) : splitNl l = [l] := by
  induction l with
  | nil => rfl
  | cons c rest ih =>
    have hc : ¬ c = '\n' := fun he => h (he ▸ List.mem_cons_self c rest)
    have hrest : '\n' ∉ rest := fun hm => h (List.mem_cons_of_mem c hm)
    simp only [splitNl]
    rw [if_neg hc, ih hrest]

/-- Whitespace characters in a cleaned text are single spaces. -/
lemma clean_text_ws_mem {l : List Char} {c : Char} (hc : c ∈ clean_text l)
    (hws : isWs c = true) : c = ' ' :=
  collapseWs_ws_mem (List.IsInfix.subset (trimWs_within _) hc) hws

/-- A cleaned text has no two adjacent whitespace characters. -/
lemma clean_text_chain' (l : List Char) :
    (clean_text l).Chain' (fun a b => ¬(isWs a = true ∧ isWs b = true)) :=
  List.Chain'.infix (collapseWs_chain' _) (trimWs_within _)

/-- A cleaned text contains no newline. -/
lemma clean_text_nl_not_mem (l : List Char) : '\n' ∉ clean_text l := by
  intro hm
  have h := clean_text_ws_mem hm (by decide)
  exact absurd h (by decide)

/-- Cleaning is idempotent. -/
lemma clean_text_idem (l : List Char) : clean_text (clean_text l) = clean_text l := by
  by_cases hnil : clean_text l = []
  · rw [hnil]
    rfl
  · have hnl : '\n' ∉ clean_text l := clean_text_nl_not_mem l
    have hsplit : splitNl (clean_text l) = [clean_text l] := splitNl_no_nl hnl
    have htrim : trimWs (clean_text l) = clean_text l := by
      refine trimWs_eq_self ?_ ?_
      · intro c hc
        unfold clean_text at hc
        exact trimWs_head_not_ws hc
      · intro c hc
        unfold clean_text at hc
        exact trimWs_getLast_not_ws hc
    have hfix : collapseWs (clean_text l) = clean_text l :=
      collapseWs_fix _ (fun c hc hw => clean_text_ws_mem hc hw) (clean_text_chain' l)
    show trimWs (collapseWs (List.intercalate ['\n']
      (((splitNl (clean_text l)).map trimWs).filter (fun g => !g.isEmpty)))) = clean_text l
    rw [hsplit]
    simp only [List.map_cons, List.map_nil]
    rw [htrim]
    have hfilter : List.filter (fun g => !g.isEmpty) [clean_text l] = [clean_text l] := by
      simp [List.filter_cons, List.isEmpty_iff, hnil]
    rw [hfilter]
    rw [show List.intercalate ['\n'] [clean_text l] = clean_text l from by
      simp [List.intercalate]]
    rw [hfix, htrim]

/-! ## Claim theorems -/

open Matcher Analyzer Parser

/-- C1: the overall score is the weighted sum of the three sub-scores
with weights 0.50, 0.30, 0.20 rounded to two decimals, the weights sum
to exactly one, the rounded result stays in the unit interval whenever
each sub-score is in the unit interval, and `get_match_category` assigns
exactly the four labels with inclusive lower bounds 0.8, 0.6, 0.4. -/
theorem C1_overall_score_and_category :
    (WEIGHTS_skills + WEIGHTS_experience + WEIGHTS_education = 1)
    ∧ (∀ a j, calculate_match_score a j =
        round2 (calculate_skills_score a.skills j.skills * (50 / 100)
          + calculate_experience_score a.experience_years j.minimum_experience * (30 / 100)
          + calculate_education_score a.education_level j.education_level * (20 / 100)))
    ∧ (∀ s e d : ℚ, 0 ≤ s → s ≤ 1 → 0 ≤ e → e ≤ 1 → 0 ≤ d → d ≤ 1 →
        0 ≤ round2 (s * WEIGHTS_skills + e * WEIGHTS_experience + d * WEIGHTS_education)
        ∧ round2 (s * WEIGHTS_skills + e * WEIGHTS_experience + d * WEIGHTS_education) ≤ 1)
    ∧ (∀ x : ℚ,
        ((0.8 : ℚ) ≤ x → get_match_category x = "Excellent Match")
        ∧ ((0.6 : ℚ) ≤ x → x < 0.8 → get_match_category x = "Good Match")
        ∧ ((0.4 : ℚ) ≤ x → x < 0.6 → get_match_category x = "Fair Match")
        ∧ (x < 0.4 → get_match_category x = "Poor Match")) := by
  refine ⟨by norm_num [WEIGHTS_skills, WEIGHTS_experience, WEIGHTS_education], ?_, ?_, ?_⟩
  · intro a j
    unfold calculate_match_score
    norm_num [WEIGHTS_skills, WEIGHTS_experience, WEIGHTS_education]
  · intro s e d hs0 hs1 he0 he1 hd0 hd1
    have hw : s * WEIGHTS_skills + e * WEIGHTS_experience + d * WEIGHTS_education
        = s * (1 / 2) + e * (3 / 10) + d * (1 / 5) := by
      norm_num [WEIGHTS_skills, WEIGHTS_experience, WEIGHTS_education]
    rw [hw]
    exact round2_mem_unit (by linarith) (by linarith)
  · intro x
    refine ⟨fun h => ?_, fun h1 h2 => ?_, fun h1 h2 => ?_, fun h => ?_⟩ <;>
      · unfold get_match_category
        split_ifs <;> first | rfl | linarith

/-- Witness for C1: concrete sub-scores and category inputs. -/
theorem C1_overall_score_and_category_witness :
    (0 ≤ round2 ((1 : ℚ) * WEIGHTS_skills + 1 * WEIGHTS_experience + (1 / 2) * WEIGHTS_education)
      ∧ round2 ((1 : ℚ) * WEIGHTS_skills + 1 * WEIGHTS_experience + (1 / 2) * WEIGHTS_education) ≤ 1)
    ∧ get_match_category 0.9 = "Excellent Match"
    ∧ get_match_category 0.7 = "Good Match"
    ∧ get_match_category 0.5 = "Fair Match"
    ∧ get_match_category 0.1 = "Poor Match" := by
  refine ⟨C1_overall_score_and_category.2.2.1 1 1 (1 / 2) (by norm_num) (by norm_num)
      (by norm_num) (by norm_num) (by norm_num) (by norm_num), ?_, ?_, ?_, ?_⟩
  · exact (C1_overall_score_and_category.2.2.2 0.9).1 (by norm_num)
  · exact (C1_overall_score_and_category.2.2.2 0.7).2.1 (by norm_num) (by norm_num)
  · exact (C1_overall_score_and_category.2.2.2 0.5).2.2.1 (by norm_num) (by norm_num)
  · exact (C1_overall_score_and_category.2.2.2 0.1).2.2.2 (by norm_num)

/-- C2: the skills sub-score is 1 when no skills are required, 0 when
skills are required but the candidate has none, and otherwise the number
of normalized required skills matched divided by the number of
normalized required skills, capped at 1; it always lies in the unit
interval and grows monotonically with the normalized intersection. -/
theorem C2_skills_score_spec :
    (∀ c, calculate_skills_score c [] = 1)
    ∧ (∀ r, r ≠ [] → calculate_skills_score [] r = 0)
    ∧ (∀ c r, c ≠ [] → r ≠ [] → calculate_skills_score c r =
        min (((normSet c ∩ normSet r).card : ℚ) / ((normSet r).card : ℚ)) 1)
    ∧ (∀ c r, 0 ≤ calculate_skills_score c r ∧ calculate_skills_score c r ≤ 1)
    ∧ (∀ c₁ c₂ r, normSet c₁ ∩ normSet r ⊆ normSet c₂ ∩ normSet r →
        calculate_skills_score c₁ r ≤ calculate_skills_score c₂ r) := by
  refine ⟨?_, ?_, ?_, ?_, skills_score_mono⟩
  · intro c
    simp [calculate_skills_score]
  · intro r hr
    simp [calculate_skills_score, hr]
  · intro c r hc hr
    simp [calculate_skills_score, hc, hr]
  · intro c r
    exact ⟨skills_score_nonneg c r, skills_score_le_one c r⟩

/-- Witness for C2: an empty required list, an empty candidate list, and
a one-of-one match exercised on concrete skill lists. -/
theorem C2_skills_score_spec_witness :
    calculate_skills_score [] ["python"] = 0
    ∧ calculate_skills_score ["Python "] ["python"] =
        min (((normSet ["Python "] ∩ normSet ["python"]).card : ℚ)
          / ((normSet ["python"]).card : ℚ)) 1
    ∧ calculate_skills_score ["java"] ["python"]
        ≤ calculate_skills_score ["PYTHON"] ["python"] := by
  refine ⟨C2_skills_score_spec.2.1 ["python"] (by decide),
    C2_skills_score_spec.2.2.1 ["Python "] ["python"] (by decide) (by decide),
    C2_skills_score_spec.2.2.2.2 ["java"] ["PYTHON"] ["python"] (by decide)⟩

/-- C3: the experience sub-score is 1 for an empty or explicit
no-experience requirement, 0.5 when no integer can be extracted from the
requirement, and otherwise follows the tiered ladder on the first
integer `r` of the requirement, the tiers tried in the order of the
code's `elif` chain; in particular requirement "3+ years" scores 0.8 for
3 years and 0.9 for 5 years. -/
theorem C3_experience_score_spec :
    (∀ y, calculate_experience_score y "" = 1)
    ∧ (∀ y s, lowerStr s = "no experience required" → calculate_experience_score y s = 1)
    ∧ (∀ y s, s ≠ "" → lowerStr s ≠ "no experience required" → firstNat s.data = none →
        calculate_experience_score y s = 0.5)
    ∧ (∀ y s r, s ≠ "" → lowerStr s ≠ "no experience required" → firstNat s.data = some r →
        ((r ≤ y → calculate_experience_score y s
            = min 1 (0.8 + min (((y : ℚ) - (r : ℚ)) * 0.05) 0.2))
         ∧ (¬ r ≤ y → (r : ℚ) * 0.75 ≤ (y : ℚ) → calculate_experience_score y s = 0.8)
         ∧ (¬ (r : ℚ) * 0.75 ≤ (y : ℚ) → (r : ℚ) * 0.5 ≤ (y : ℚ) →
              calculate_experience_score y s = 0.6)
         ∧ (¬ (r : ℚ) * 0.5 ≤ (y : ℚ) → 0 < y → calculate_experience_score y s = 0.4)
         ∧ (¬ (r : ℚ) * 0.5 ≤ (y : ℚ) → y = 0 → calculate_experience_score y s = 0.2)))
    ∧ calculate_experience_score 3 "3+ years" = 0.8
    ∧ calculate_experience_score 5 "3+ years" = 0.9
    ∧ calculate_experience_score 0 "no experience required" = 1 := by
  refine ⟨?_, ?_, ?_, ?_, ?_, ?_, ?_⟩
  · intro y
    simp [calculate_experience_score]
  · intro y s h
    simp [calculate_experience_score, h]
  · intro y s hs hl hp
    simp [calculate_experience_score, hs, hl, hp]
  · intro y s r hs hl hp
    have hnn : (0 : ℚ) ≤ (r : ℚ) := Nat.cast_nonneg r
    rw [experience_score_of_parse hs hl hp]
    refine ⟨fun h => ?_, fun h1 h2 => ?_, fun h1 h2 => ?_, fun h1 h2 => ?_, fun h1 h2 => ?_⟩
    · rw [if_pos h]
    · rw [if_neg h1, if_pos h2]
    · have hcast : ¬ r ≤ y := by
        intro hxy
        have : (r : ℚ) ≤ (y : ℚ) := Nat.cast_le.mpr hxy
        exact h1 (by linarith)
      rw [if_neg hcast, if_neg h1, if_pos h2]
    · have h075 : ¬ (r : ℚ) * 0.75 ≤ (y : ℚ) := by
        intro hle
        exact h1 (by linarith)
      have hcast : ¬ r ≤ y := by
        intro hxy
        have : (r : ℚ) ≤ (y : ℚ) := Nat.cast_le.mpr hxy
        exact h075 (by linarith)
      rw [if_neg hcast, if_neg h075, if_neg h1, if_pos h2]
    · have h075 : ¬ (r : ℚ) * 0.75 ≤ (y : ℚ) := by
        intro hle
        exact h1 (by linarith)
      have hcast : ¬ r ≤ y := by
        intro hxy
        have : (r : ℚ) ≤ (y : ℚ) := Nat.cast_le.mpr hxy
        exact h075 (by linarith)
      subst h2
      rw [if_neg hcast, if_neg h075, if_neg h1, if_neg (by omega)]
  · rw [experience_score_of_parse (y := 3) (r := 3) (by decide) (by decide) (by decide),
      if_pos (by norm_num)]
    norm_num
  · rw [experience_score_of_parse (y := 5) (r := 3) (by decide) (by decide) (by decide),
      if_pos (by norm_num)]
    rw [min_def]
    norm_num
  · unfold calculate_experience_score
    rw [if_pos (Or.inr (by decide))]

/-- Witness for C3: each hypothesis-guarded tier exercised at a concrete
requirement string and candidate-year count. -/
theorem C3_experience_score_spec_witness :
    calculate_experience_score 7 "no experience required" = 1
    ∧ calculate_experience_score 7 "several years" = 0.5
    ∧ calculate_experience_score 5 "3+ years"
        = min 1 (0.8 + min (((5 : ℚ) - (3 : ℚ)) * 0.05) 0.2)
    ∧ calculate_experience_score 3 "4 years" = 0.8
    ∧ calculate_experience_score 2 "4 years" = 0.6
    ∧ calculate_experience_score 1 "4 years" = 0.4
    ∧ calculate_experience_score 0 "4 years" = 0.2 := by
  refine ⟨C3_experience_score_spec.2.1 7 "no experience required" (by decide),
    C3_experience_score_spec.2.2.1 7 "several years" (by decide) (by decide) (by decide),
    (C3_experience_score_spec.2.2.2.1 5 "3+ years" 3 (by decide) (by decide) (by decide)).1
      (by norm_num),
    (C3_experience_score_spec.2.2.2.1 3 "4 years" 4 (by decide) (by decide) (by decide)).2.1
      (by norm_num) (by norm_num),
    (C3_experience_score_spec.2.2.2.1 2 "4 years" 4 (by decide) (by decide) (by decide)).2.2.1
      (by norm_num) (by norm_num),
    (C3_experience_score_spec.2.2.2.1 1 "4 years" 4 (by decide) (by decide) (by decide)).2.2.2.1
      (by norm_num) (by norm_num),
    (C3_experience_score_spec.2.2.2.1 0 "4 years" 4 (by decide) (by decide) (by decide)).2.2.2.2
      (by norm_num) rfl⟩

/-- C4: education strings are ranked by case-insensitive substring
containment against the fixed level table with first match in table
order and rank 0 for no match; without a requirement the score is the
candidate rank over three capped at one, and with a requirement the
score follows the at-or-above / one-below / further-below / unranked
ladder of the code's `elif` chain. -/
theorem C4_education_score_spec :
    (∀ cand, calculate_education_score cand none = min ((levelOf cand : ℚ) / 3) 1)
    ∧ (∀ cand, calculate_education_score cand (some "") = min ((levelOf cand : ℚ) / 3) 1)
    ∧ (∀ cand req, req ≠ "" →
        ((levelOf req ≤ levelOf cand → calculate_education_score cand (some req) = 1)
         ∧ (levelOf cand + 1 = levelOf req → calculate_education_score cand (some req) = 0.7)
         ∧ (levelOf cand + 1 < levelOf req → 0 < levelOf cand →
              calculate_education_score cand (some req) = 0.4)
         ∧ (levelOf cand + 1 < levelOf req → levelOf cand = 0 →
              calculate_education_score cand (some req) = 0)))
    ∧ (levelOf "High School Diploma" = 1 ∧ levelOf "Associate Degree" = 2
       ∧ levelOf "Bachelor of Science" = 3 ∧ levelOf "bachelor\x27s" = 3
       ∧ levelOf "Master of Arts" = 4 ∧ levelOf "PhD" = 5 ∧ levelOf "Doctorate" = 5
       ∧ levelOf "" = 0 ∧ levelOf "self taught" = 0
       ∧ levelOf "master\x27s student working toward a phd" = 4) := by
  refine ⟨?_, ?_, ?_, by decide⟩
  · intro cand
    simp [calculate_education_score]
  · intro cand
    simp [calculate_education_score]
  · intro cand req hreq
    rw [education_score_of_req hreq]
    refine ⟨fun h => ?_, fun h => ?_, fun h1 h2 => ?_, fun h1 h2 => ?_⟩
    · rw [if_pos h]
    · rw [if_neg (by omega), if_pos (by omega)]
    · rw [if_neg (by omega), if_neg (by omega), if_pos h2]
    · rw [if_neg (by omega), if_neg (by omega), if_neg (by omega)]

/-- Witness for C4: each requirement-guarded branch exercised on
concrete education strings. -/
theorem C4_education_score_spec_witness :
    calculate_education_score "Bachelor of Science" (some "Bachelor") = 1
    ∧ calculate_education_score "Bachelor of Science" (some "Master of Arts") = 0.7
    ∧ calculate_education_score "High School Diploma" (some "Master of Arts") = 0.4
    ∧ calculate_education_score "self taught" (some "Bachelor") = 0 := by
  refine ⟨(C4_education_score_spec.2.2.1 "Bachelor of Science" "Bachelor" (by decide)).1
      (by decide),
    (C4_education_score_spec.2.2.1 "Bachelor of Science" "Master of Arts" (by decide)).2.1
      (by decide),
    (C4_education_score_spec.2.2.1 "High School Diploma" "Master of Arts" (by decide)).2.2.1
      (by decide) (by decide),
    (C4_education_score_spec.2.2.1 "self taught" "Bachelor" (by decide)).2.2.2
      (by decide) (by decide)⟩

/-- C10: when a non-empty required education string matches no entry of
the level table (rank 0), every candidate — including one whose own
string ranks 0, such as the empty string — scores 1.0, because any rank
is at or above the required rank 0. -/
theorem C10_unrankable_requirement_scores_one :
    (∀ cand req, req ≠ "" → levelOf req = 0 →
      calculate_education_score cand (some req) = 1)
    ∧ levelOf "" = 0 := by
  constructor
  · intro cand req hreq h0
    rw [education_score_of_req hreq, if_pos (by omega)]
  · decide

/-- Witness for C10: an unrankable requirement and an empty candidate
string. -/
theorem C10_unrankable_requirement_scores_one_witness :
    calculate_education_score "" (some "certification courses") = 1 :=
  C10_unrankable_requirement_scores_one.1 "" "certification courses" (by decide) (by decide)

/-- C5: when the response text does not parse as JSON, both analysis
variants return (rather than raise) a fallback profile with empty
skills, achievements and matched skills, experience 0, education level
"Unknown", a summary noting the parse error, and `missing_skills` equal
to the job's entire required-skills list. -/
theorem C5_parse_failure_fallback (js : List String) (e : String) :
    (lookupKey (analyze_resume_post none js e) "skills" = some (.arr [])
     ∧ lookupKey (analyze_resume_post none js e) "experience_years" = some (.num 0)
     ∧ lookupKey (analyze_resume_post none js e) "education_level" = some (.str "Unknown")
     ∧ lookupKey (analyze_resume_post none js e) "key_achievements" = some (.arr [])
     ∧ lookupKey (analyze_resume_post none js e) "summary"
        = some (.str "Error parsing AI response")
     ∧ lookupKey (analyze_resume_post none js e) "matched_skills" = some (.arr [])
     ∧ lookupKey (analyze_resume_post none js e) "missing_skills"
        = some (.arr (js.map .str)))
    ∧ (lookupKey (sync_analyze_resume_post none js) "skills" = some (.arr [])
     ∧ lookupKey (sync_analyze_resume_post none js) "experience_years" = some (.num 0)
     ∧ lookupKey (sync_analyze_resume_post none js) "education_level" = some (.str "Unknown")
     ∧ lookupKey (sync_analyze_resume_post none js) "key_achievements" = some (.arr [])
     ∧ lookupKey (sync_analyze_resume_post none js) "summary"
        = some (.str "Error parsing AI response")
     ∧ lookupKey (sync_analyze_resume_post none js) "matched_skills" = some (.arr [])
     ∧ lookupKey (sync_analyze_resume_post none js) "missing_skills"
        = some (.arr (js.map .str))) :=
  ⟨⟨rfl, rfl, rfl, rfl, rfl, rfl, rfl⟩, ⟨rfl, rfl, rfl, rfl, rfl, rfl, rfl⟩⟩

/-- C6 counterexample: the async variant fills a missing
`education_level` with the empty list, not with the string "Unknown" the
claim states. -/
theorem C6_counterexample :
    lookupKey (analyze_resume_post (some []) [] "err") "education_level"
      = some (JVal.arr [])
    ∧ JVal.arr [] ≠ JVal.str "Unknown" :=
  ⟨rfl, fun h => JVal.noConfusion h⟩

/-- C6 amended: on a successfully parsed object each absent mandatory
key is filled and present keys are kept, the call returning the
completed object; the sync variant uses the type-appropriate defaults
`[]` / `0` / "Unknown", while the async variant fills a missing
`experience_years` with `None` and any other missing mandatory key —
`skills` and also `education_level` — with `[]`. -/
theorem C6_missing_key_defaults :
    (∀ o js f, f ∈ REQUIRED_FIELDS → lookupKey o f = none →
        lookupKey (sync_analyze_resume_post (some o) js) f = some (syncDefault f))
    ∧ (∀ o js f v, lookupKey o f = some v →
        lookupKey (sync_analyze_resume_post (some o) js) f = some v)
    ∧ (∀ o js e f, f ∈ REQUIRED_FIELDS → lookupKey o f = none →
        lookupKey (analyze_resume_post (some o) js e) f = some (asyncDefault f))
    ∧ (∀ o js e f v, lookupKey o f = some v →
        lookupKey (analyze_resume_post (some o) js e) f = some v)
    ∧ (syncDefault "skills" = .arr [] ∧ syncDefault "experience_years" = .num 0
       ∧ syncDefault "education_level" = .str "Unknown")
    ∧ (asyncDefault "skills" = .arr [] ∧ asyncDefault "experience_years" = .null
       ∧ asyncDefault "education_level" = .arr []) := by
  refine ⟨?_, ?_, ?_, ?_, ⟨rfl, rfl, rfl⟩, ⟨rfl, rfl, rfl⟩⟩
  · intro o js f hf h
    exact lookupKey_fillLoop_of_none syncDefault hf h
  · intro o js f v h
    exact lookupKey_fillLoop_of_some syncDefault REQUIRED_FIELDS h
  · intro o js e f hf h
    exact lookupKey_fillLoop_of_none asyncDefault hf h
  · intro o js e f v h
    exact lookupKey_fillLoop_of_some asyncDefault REQUIRED_FIELDS h

/-- Witness for the amended C6: a concrete object missing
`education_level` and `experience_years` but carrying `skills`. -/
theorem C6_missing_key_defaults_witness :
    lookupKey (sync_analyze_resume_post
        (some [("skills", JVal.arr [JVal.str "Python"])]) []) "education_level"
      = some (syncDefault "education_level")
    ∧ lookupKey (sync_analyze_resume_post
        (some [("skills", JVal.arr [JVal.str "Python"])]) []) "skills"
      = some (JVal.arr [JVal.str "Python"])
    ∧ lookupKey (analyze_resume_post
        (some [("skills", JVal.arr [JVal.str "Python"])]) [] "err") "experience_years"
      = some (asyncDefault "experience_years")
    ∧ lookupKey (analyze_resume_post
        (some [("skills", JVal.arr [JVal.str "Python"])]) [] "err") "skills"
      = some (JVal.arr [JVal.str "Python"]) :=
  ⟨C6_missing_key_defaults.1 [("skills", JVal.arr [JVal.str "Python"])] []
      "education_level" (by decide) rfl,
   C6_missing_key_defaults.2.1 [("skills", JVal.arr [JVal.str "Python"])] []
      "skills" (JVal.arr [JVal.str "Python"]) rfl,
   C6_missing_key_defaults.2.2.1 [("skills", JVal.arr [JVal.str "Python"])] [] "err"
      "experience_years" (by decide) rfl,
   C6_missing_key_defaults.2.2.2.1 [("skills", JVal.arr [JVal.str "Python"])] [] "err"
      "skills" (JVal.arr [JVal.str "Python"]) rfl⟩

/-- C7 counterexample: a PDF whose primary (pdfplumber) extraction
succeeds with no text while the PyPDF2 strategy would raise.  Under the
claim, empty primary text triggers the fallback, and a raising fallback
makes the call fail with an extraction failure; the code instead returns
the empty text and never consults the fallback. -/
theorem C7_counterexample :
    extract_from_pdf ⟨.ok [], .error "boom"⟩ = .ok "" := rfl

/-- C7 amended: `extract_from_pdf` returns the primary strategy's text —
even when it is empty — whenever that strategy does not raise; the
PyPDF2 fallback runs only when the primary raises; only when the
fallback also raises does the call fail, wrapping the underlying cause;
an empty extraction result is rejected separately by the service layer's
`extract_text`, not by retrying the fallback. -/
theorem C7_pdf_fallback_on_raise_only :
    (∀ (d : PdfDoc) pages, d.plumberPages = .ok pages →
        extract_from_pdf d = .ok (pagesText pages))
    ∧ (∀ (d : PdfDoc) err pages, d.plumberPages = .error err →
        d.pypdfPages = .ok pages → extract_from_pdf d = .ok (pagesText pages))
    ∧ (∀ (d : PdfDoc) err e, d.plumberPages = .error err →
        d.pypdfPages = .error e →
        extract_from_pdf d = .error ("Could not extract text from PDF: " ++ e))
    ∧ extract_text (.ok "") = .error "No text could be extracted from resume" := by
  refine ⟨?_, ?_, ?_, rfl⟩
  · intro d pages h
    simp [extract_from_pdf, h]
  · intro d err pages h1 h2
    simp [extract_from_pdf, extract_pdf_pypdf2, h1, h2]
  · intro d err e h1 h2
    simp [extract_from_pdf, extract_pdf_pypdf2, h1, h2]

/-- Witness for the amended C7: concrete documents exercising the
primary-success, fallback-success and both-raise paths. -/
theorem C7_pdf_fallback_on_raise_only_witness :
    extract_from_pdf ⟨.ok [some "hello"], .error "x"⟩ = .ok (pagesText [some "hello"])
    ∧ extract_from_pdf ⟨.error "fail1", .ok [some "hi"]⟩ = .ok (pagesText [some "hi"])
    ∧ extract_from_pdf ⟨.error "fail1", .error "fail2"⟩
        = .error ("Could not extract text from PDF: " ++ "fail2") :=
  ⟨C7_pdf_fallback_on_raise_only.1 ⟨.ok [some "hello"], .error "x"⟩ [some "hello"] rfl,
   C7_pdf_fallback_on_raise_only.2.1 ⟨.error "fail1", .ok [some "hi"]⟩ "fail1"
      [some "hi"] rfl rfl,
   C7_pdf_fallback_on_raise_only.2.2.1 ⟨.error "fail1", .error "fail2"⟩ "fail1"
      "fail2" rfl rfl⟩

/-- C8: for an existing file whose lower-cased extension is neither
".pdf" nor ".docx", `parse_resume` yields an unsupported-format outcome
that does not depend on what any extraction strategy would return — so
no extraction is attempted; in particular ".doc" unconditionally takes
the not-implemented branch and ".txt" the unknown-suffix branch, both of
which the spec's error taxonomy classifies as `UnsupportedFormatError`,
and the dispatch is case-insensitive. -/
theorem C8_unsupported_extension_fails_early :
    (∀ ext p₁ d₁ p₂ d₂, lowerStr ext ≠ ".pdf" → lowerStr ext ≠ ".docx" →
        parse_resume true ext p₁ d₁ = parse_resume true ext p₂ d₂)
    ∧ (∀ ext p d, lowerStr ext ≠ ".pdf" → lowerStr ext ≠ ".docx" →
        UnsupportedFormatError (parse_resume true ext p d))
    ∧ (∀ p d, parse_resume true ".doc" p d = .docNotImplemented)
    ∧ (∀ p d, parse_resume true ".txt" p d = .unsupportedExt ".txt")
    ∧ (∀ p d, parse_resume true ".TXT" p d = .unsupportedExt ".txt") := by
  refine ⟨?_, ?_, fun p d => rfl, fun p d => rfl, fun p d => rfl⟩
  · intro ext p₁ d₁ p₂ d₂ h1 h2
    simp [parse_resume, h1, h2]
  · intro ext p d h1 h2
    simp only [parse_resume]
    rw [if_neg (by simp)]
    split_ifs <;> trivial

/-- Witness for C8: a concrete ".md" file with differing extraction
outcomes on the two sides. -/
theorem C8_unsupported_extension_fails_early_witness :
    parse_resume true ".md" (.ok "a") (.error "b")
      = parse_resume true ".md" (.error "c") (.ok "d")
    ∧ UnsupportedFormatError (parse_resume true ".md" (.ok "a") (.error "b")) :=
  ⟨C8_unsupported_extension_fails_early.1 ".md" (.ok "a") (.error "b") (.error "c")
      (.ok "d") (by decide) (by decide),
   C8_unsupported_extension_fails_early.2.1 ".md" (.ok "a") (.error "b")
      (by decide) (by decide)⟩

/-- C9: `clean_text` is a total pure function, idempotent on every
input, and its output never starts or ends with whitespace, never has
two adjacent whitespace characters (hence no run of multiple spaces),
and contains no newline at all (hence no run of blank lines). -/
theorem C9_clean_text_idempotent_normalized :
    (∀ l, clean_text (clean_text l) = clean_text l)
    ∧ (∀ l c, (clean_text l).head? = some c → isWs c = false)
    ∧ (∀ l c, (clean_text l).getLast? = some c → isWs c = false)
    ∧ (∀ l, (clean_text l).Chain' (fun a b => ¬(isWs a = true ∧ isWs b = true)))
    ∧ (∀ l, '\n' ∉ clean_text l) := by
  refine ⟨clean_text_idem, ?_, ?_, clean_text_chain', clean_text_nl_not_mem⟩
  · intro l c h
    unfold clean_text at h
    exact trimWs_head_not_ws h
  · intro l c h
    unfold clean_text at h
    exact trimWs_getLast_not_ws h

/-- Witness for C9: the cleaned form of a concrete messy string starts
with a non-whitespace character and ends with one. -/
theorem C9_clean_text_idempotent_normalized_witness :
    isWs 'a' = false ∧ isWs 'b' = false :=
  ⟨C9_clean_text_idempotent_normalized.2.1 (" a  b ".data) 'a' rfl,
   C9_clean_text_idempotent_normalized.2.2.1 (" a  b ".data) 'b' rfl⟩

end Talexa
